import Mathlib

/-!
# Verification of the SEMrush keyword-data parser and query engine

A shallow embedding of the decode/validate/query core of
`src/components/SemrushKeywordTable.vue`:

* the JS string primitives the parser uses (`split` on a one-character
  separator, `trim`, `replace(/,/g,'')`, `toLowerCase`, `includes`),
  modelled structurally over the character list of the string;
* the JS numeric coercions `Number.parseFloat` / `Number.parseInt`
  (radix 10) as used by the field decoders — finite JS numbers are
  modelled as exact rationals; the only observable use of a non-finite
  result (`NaN` / `±Infinity`) in the source is the `Number.isFinite`
  guard that throws, so the parsing functions return `none` there;
* the field decoders `parseNumber`, `parseNumberOrNull`, `parseIntList`,
  `parseFloatList` — thrown `Error`s become an `Except` error value
  carrying the same data the message interpolates;
* the dataset parser `parseSemrushText`;
* the load handler `onFileChange` (its state mutations, over an explicit
  session-state record);
* the query layer `filteredRows` / `compareRows` / `sortedRows`.
  `String.prototype.localeCompare` is locale dependent, so the keyword
  comparator is an abstract parameter; `Array.prototype.sort` under the
  source's comparator (which is a strict total order thanks to the
  original-index tiebreak) has a unique admissible output, produced here
  by a sort over the comparator's `≤ 0` relation.
-/

deriving instance DecidableEq for Except

attribute [local semireducible] Rat.mul Rat.inv Rat.add Rat.sub Rat.ofScientific

namespace Semrush

/-! ## JS string primitives -/

/-- `s.split(sep)` for a one-character separator, on character lists:
`"" → [""]`, separators at the ends produce empty pieces. -/
def splitOnChar (sep : Char) : List Char → List (List Char)
  | [] => [[]]
  | c :: rest =>
    match splitOnChar sep rest with
    | [] => [[]]
    | cur :: more => if c = sep then [] :: cur :: more else (c :: cur) :: more

/-- `String.prototype.trim` on character lists (the source only feeds it
ASCII whitespace). -/
def trimChars (cs : List Char) : List Char :=
  ((cs.dropWhile Char.isWhitespace).reverse.dropWhile Char.isWhitespace).reverse

/-- `raw.trim()`. -/
def jsTrim (s : String) : String := ⟨trimChars s.data⟩

/-- `s.split(sep)` producing strings. -/
def jsSplit (s : String) (sep : Char) : List String :=
  (splitOnChar sep s.data).map String.mk

/-- `normalized.replace(/,/g, '')`: every comma is removed, wherever it
occurs. -/
def removeCommas (s : String) : String :=
  ⟨s.data.filter (fun c => c ≠ ',')⟩

/-- `s.toLowerCase()` (ASCII case mapping, all the source's column data
uses). -/
def jsToLower (s : String) : String := ⟨s.data.map Char.toLower⟩

/-- `sub` occurs as a contiguous run inside `s`. -/
def charsContain (s sub : List Char) : Bool :=
  match s with
  | [] => sub.isEmpty
  | _ :: rest => sub.isPrefixOf s || charsContain rest sub

/-- `haystack.includes(needle)`. -/
def jsIncludes (haystack needle : String) : Bool :=
  charsContain haystack.data needle.data

/-- Drops the `\r` of a `\r\n` line ending: `split(/\r?\n/)` is `split`
on `\n` with the `\r` immediately before each `\n` consumed. -/
def stripCR (cs : List Char) : List Char :=
  if cs.getLast? = some '\r' then cs.dropLast else cs

/-! ## JS number coercions -/

/-- Numeric value of a list of decimal digit characters, most significant
first (the accumulation `Number.parseInt` / `parseFloat` perform on the
digit span they consume). -/
def digitsVal (ds : List Char) : Nat :=
  ds.foldl (fun acc c => acc * 10 + (c.toNat - 48)) 0

/-- `q * 10 ^ e` for an integer exponent `e`, as used for the exponent
part of a JS float literal. -/
def applyExp10 (q : Rat) : Int → Rat
  | .ofNat n => q * (10 : Rat) ^ n
  | .negSucc n => q / (10 : Rat) ^ (n + 1)

/-- The exponent suffix of a JS float literal: after `e`/`E`, an optional
sign and a digit span; a malformed exponent (no digits) is ignored by
`Number.parseFloat`, contributing exponent `0`. -/
def jsExpPart (cs : List Char) : Int :=
  let signed : Int × List Char :=
    match cs with
    | '-' :: r => (-1, r)
    | '+' :: r => (1, r)
    | _ => (1, cs)
  let ds := signed.2.takeWhile Char.isDigit
  if ds.isEmpty then 0 else signed.1 * (digitsVal ds : Int)

/-- `Number.parseFloat` on a list of characters: skip leading whitespace,
optional sign, then the longest numeric prefix `digits [. digits] [exp]`;
trailing characters are ignored.  `none` models a non-finite result
(`NaN` when no numeric prefix exists, `±Infinity` for an `Infinity`
literal), which every call site in the source rejects via
`Number.isFinite`. -/
def jsParseFloatCore (cs0 : List Char) : Option Rat :=
  let cs1 := cs0.dropWhile Char.isWhitespace
  let signed : Rat × List Char :=
    match cs1 with
    | '-' :: r => (-1, r)
    | '+' :: r => (1, r)
    | _ => (1, cs1)
  let cs := signed.2
  if cs.take 8 = "Infinity".data then
    none
  else
    let ds1 := cs.takeWhile Char.isDigit
    let rest1 := cs.dropWhile Char.isDigit
    let frac : List Char × List Char :=
      match rest1 with
      | '.' :: r => (r.takeWhile Char.isDigit, r.dropWhile Char.isDigit)
      | _ => ([], rest1)
    let ds2 := frac.1
    if ds1.isEmpty && ds2.isEmpty then
      none
    else
      let mant : Rat := (digitsVal (ds1 ++ ds2) : Rat) / (10 : Rat) ^ ds2.length
      let expo : Int :=
        match frac.2 with
        | 'e' :: r => jsExpPart r
        | 'E' :: r => jsExpPart r
        | _ => 0
      some (signed.1 * applyExp10 mant expo)

/-- `Number.parseFloat` on a string. -/
def jsParseFloat (s : String) : Option Rat := jsParseFloatCore s.data

/-- `Number.parseInt(·, 10)`: skip leading whitespace, optional sign, then
the longest digit span; trailing characters are ignored; `none` models
`NaN` (no digits). -/
def jsParseInt (s : String) : Option Int :=
  let cs1 := s.data.dropWhile Char.isWhitespace
  let signed : Int × List Char :=
    match cs1 with
    | '-' :: r => (-1, r)
    | '+' :: r => (1, r)
    | _ => (1, cs1)
  let ds := signed.2.takeWhile Char.isDigit
  if ds.isEmpty then none else some (signed.1 * (digitsVal ds : Int))

/-! ## Data model and field decoders -/

/-- The errors thrown by the parsing layer, carrying the data interpolated
into the source's `Error` message strings. -/
inductive ParseErr where
  /-- `'Invalid header. "Keyword" column is required.'` -/
  | missingRequiredColumn : ParseErr
  /-- `` `Line ${lineNumber}: invalid ${label} value "${raw}"` `` -/
  | invalidValue (label : String) (lineNumber : Nat) (raw : String) : ParseErr
  /-- `` `Line ${lineNumber}: invalid ${label} entry "${piece}"` `` -/
  | invalidListEntry (label : String) (lineNumber : Nat) (piece : String) : ParseErr
  /-- `` `Line ${lineNumber}: Trends must have exactly 12 values` `` -/
  | trendsLengthMismatch (lineNumber : Nat) : ParseErr
deriving DecidableEq, Repr

/-- The decoded `KeywordRow` record. -/
structure KeywordRow where
  id : Nat
  keyword : String
  searchVolume : Option Rat
  cpc : Option Rat
  competition : Option Rat
  numberOfResults : Option Rat
  trends : List Rat
  relatedRelevance : Option Rat
  serpFeatures : List Int
  intentCodes : List Int
  kd : Option Rat
deriving DecidableEq, Repr

/-- `EXPECTED_HEADERS`: the catalog of recognized column names, in source
order. -/
def EXPECTED_HEADERS : List String :=
  ["Keyword", "Search Volume", "CPC", "Competition", "Number of Results",
   "Trends", "Related Relevance", "Keywords SERP Features", "Intent",
   "Keyword Difficulty Index"]

/-- `function parseNumber(raw, label, lineNumber, isInt)`. -/
def parseNumber (raw label : String) (lineNumber : Nat) (intMode : Bool) :
    Except ParseErr Rat :=
  let normalized := removeCommas (jsTrim raw)
  let parsed := if intMode then (jsParseInt normalized).map (fun i => (i : Rat))
                else jsParseFloat normalized
  match parsed with
  | none => .error (.invalidValue label lineNumber raw)
  | some v => .ok v

/-- `function parseNumberOrNull(raw, label, lineNumber, isInt)`; `none`
input models the `undefined` produced by reading past a line's end or an
absent column. -/
def parseNumberOrNull (raw : Option String) (label : String) (lineNumber : Nat)
    (intMode : Bool) : Except ParseErr (Option Rat) :=
  match raw with
  | none => .ok none
  | some s =>
    if jsTrim s = "" then .ok none
    else
      match parseNumber s label lineNumber intMode with
      | .error e => .error e
      | .ok v => .ok (some v)

/-- `function parseIntList(raw, label, lineNumber)`. -/
def parseIntList (raw label : String) (lineNumber : Nat) :
    Except ParseErr (List Int) :=
  if jsTrim raw = "" then .ok []
  else
    (jsSplit raw ',').mapM fun piece =>
      match jsParseInt (jsTrim piece) with
      | none => Except.error (.invalidListEntry label lineNumber piece)
      | some v => Except.ok v

/-- `function parseFloatList(raw, label, lineNumber)`. -/
def parseFloatList (raw label : String) (lineNumber : Nat) :
    Except ParseErr (List Rat) :=
  if jsTrim raw = "" then .ok []
  else
    (jsSplit raw ',').mapM fun piece =>
      match jsParseFloat (jsTrim piece) with
      | none => Except.error (.invalidListEntry label lineNumber piece)
      | some v => Except.ok v

/-! ## Header discovery and the row decoder -/

/-- The header map: the JS `Map` assigns, for each recognized name, the
index of its last occurrence among the (trimmed) header cells (later
`set` calls overwrite earlier ones); unrecognized names are never
inserted. -/
def headerIdx (headers : List String) (h : String) : Option Nat :=
  if EXPECTED_HEADERS.contains h then
    headers.enum.foldl (fun acc p => if p.2 = h then some p.1 else acc) none
  else none

/-- `availableHeaders`: the set of recognized names present in the header,
as the sublist of the catalog (the source only observes it through
membership tests). -/
def availableHeadersOf (headers : List String) : List String :=
  EXPECTED_HEADERS.filter (fun h => headers.contains h)

/-- `read(header)` inside the row decoder: `undefined` (`none`) when the
column is absent from the header map or its index lies past the end of
the split line. -/
def readCell (headers cols : List String) (h : String) : Option String :=
  match headerIdx headers h with
  | none => none
  | some i => cols.get? i

/-- `Math.max(0, Math.min(1, value))`. -/
def clamp01 (v : Rat) : Rat := max 0 (min 1 v)

/-- The Trends read: `trendsRaw != null ? parseFloatList(...) : []`. -/
def parseTrendsCell (raw : Option String) (lineNumber : Nat) :
    Except ParseErr (List Rat) :=
  match raw with
  | some t => parseFloatList t "Trends" lineNumber
  | none => .ok []

/-- The comparator `(a, b) => a - b` passed to `Array.prototype.sort` for
the tag lists: the output is the ascending reordering (equal elements are
identical integers, so any correct sort produces it). -/
def sortIntsAsc (l : List Int) : List Int :=
  l.insertionSort (· ≤ ·)

/-- The body of `lines.slice(1).map((line, rowIndex) => ...)`: decodes one
data line given the (trimmed) header cells.  Field parses are ordered as
the source evaluates them: the Trends cell and its length check first,
then the object literal's fields in order (the `keyword` field cannot
throw). -/
def decodeRow (headers : List String) (line : String) (rowIndex : Nat) :
    Except ParseErr KeywordRow :=
  let lineNumber := rowIndex + 2
  let cols := jsSplit line ';'
  match parseTrendsCell (readCell headers cols "Trends") lineNumber with
  | .error e => .error e
  | .ok trends =>
    if trends.length ≠ 0 ∧ trends.length ≠ 12 then
      .error (.trendsLengthMismatch lineNumber)
    else
      match parseNumberOrNull (readCell headers cols "Search Volume")
          "Search Volume" lineNumber true with
      | .error e => .error e
      | .ok searchVolume =>
      match parseNumberOrNull (readCell headers cols "CPC") "CPC" lineNumber false with
      | .error e => .error e
      | .ok cpc =>
      match parseNumberOrNull (readCell headers cols "Competition")
          "Competition" lineNumber false with
      | .error e => .error e
      | .ok competition =>
      match parseNumberOrNull (readCell headers cols "Number of Results")
          "Number of Results" lineNumber true with
      | .error e => .error e
      | .ok numberOfResults =>
      match parseNumberOrNull (readCell headers cols "Related Relevance")
          "Related Relevance" lineNumber false with
      | .error e => .error e
      | .ok relatedRelevance =>
      match parseIntList ((readCell headers cols "Keywords SERP Features").getD "")
          "Keywords SERP Features" lineNumber with
      | .error e => .error e
      | .ok serp =>
      match parseIntList ((readCell headers cols "Intent").getD "") "Intent" lineNumber with
      | .error e => .error e
      | .ok intentL =>
      match parseNumberOrNull (readCell headers cols "Keyword Difficulty Index")
          "Keyword Difficulty Index" lineNumber true with
      | .error e => .error e
      | .ok kd =>
        .ok {
          id := rowIndex + 1
          keyword := jsTrim ((readCell headers cols "Keyword").getD "")
          searchVolume := searchVolume
          cpc := cpc
          competition := competition
          numberOfResults := numberOfResults
          trends := trends.map clamp01
          relatedRelevance := relatedRelevance
          serpFeatures := sortIntsAsc serp
          intentCodes := sortIntsAsc intentL
          kd := kd }

/-! ## The dataset parser -/

/-- The result of a successful parse. -/
structure ParseResult where
  rows : List KeywordRow
  availableHeaders : List String
deriving DecidableEq, Repr

/-- `text.split(/\r?\n/).map(trim).filter(Boolean)`: the trimmed,
non-blank lines. -/
def linesOf (text : String) : List (List Char) :=
  (((splitOnChar '\n' text.data).map stripCR).map trimChars).filter
    (fun l => !l.isEmpty)

/-- The header cells: the first non-blank line split on `;`, each cell
trimmed. -/
def headersOf (headerLine : List Char) : List String :=
  (splitOnChar ';' headerLine).map (fun cs => String.mk (trimChars cs))

/-- `function parseSemrushText(text)`. -/
def parseSemrushText (text : String) : Except ParseErr ParseResult :=
  match linesOf text with
  | [] => .ok ⟨[], EXPECTED_HEADERS⟩
  | headerLine :: dataLines =>
    let headers := headersOf headerLine
    let avail := availableHeadersOf headers
    if avail.contains "Keyword" then
      match dataLines.enum.mapM (fun p => decodeRow headers (String.mk p.2) p.1) with
      | .error e => .error e
      | .ok rows => .ok ⟨rows, avail⟩
    else
      .error .missingRequiredColumn

/-! ## The load handler -/

/-- The reactive state the load handler touches, as an explicit record.
The error message string is modelled by the structured error value it is
rendered from (`none` for the cleared `''` state). -/
structure SessionState where
  rows : List KeywordRow
  availableHeaders : List String
  selectedIds : List Nat
  selectedSerpFeatures : List Int
  keywordInput : String
  debouncedKeyword : String
  loadedFileName : String
  parseErrorMsg : Option ParseErr
deriving DecidableEq, Repr

/-- The state transition of `onFileChange` once the file's text is
available: `parseError` is cleared, then on a successful parse the table,
presence set, selection, tag filters and keyword inputs are replaced and
the file name recorded; a thrown parse error only records the message. -/
def onFileChange (st : SessionState) (fileName text : String) : SessionState :=
  match parseSemrushText text with
  | .ok parsed =>
    { st with
      rows := parsed.rows
      availableHeaders := parsed.availableHeaders
      selectedIds := []
      selectedSerpFeatures := []
      keywordInput := ""
      debouncedKeyword := ""
      loadedFileName := fileName
      parseErrorMsg := none }
  | .error e => { st with parseErrorMsg := some e }

/-! ## The query engine -/

/-- The predicate of `filteredRows`' `filter` callback, for a given
(already trimmed and lowercased) query, selection state and active tag
set. -/
def matchesRow (query : String) (selOnly : Bool) (selIds : List Nat)
    (activeFeatures : List Int) (row : KeywordRow) : Bool :=
  let matchesKeyword := (query == "") || jsIncludes (jsToLower row.keyword) query
  let matchesSelected := !selOnly || selIds.contains row.id
  let matchesFeatures :=
    activeFeatures.isEmpty || activeFeatures.all (fun f => row.serpFeatures.contains f)
  matchesKeyword && matchesSelected && matchesFeatures

/-- The `filteredRows` computed: text filter, selection filter and tag
filter over the parsed rows. -/
def filteredRows (rows : List KeywordRow) (debouncedKeyword : String)
    (selOnly : Bool) (selIds : List Nat) (activeFeatures : List Int) :
    List KeywordRow :=
  let query := jsToLower (jsTrim debouncedKeyword)
  rows.filter (matchesRow query selOnly selIds activeFeatures)

/-- `type SortKey`. -/
inductive SortKey where
  | keyword | intent | volume | kd | cpc | competition | results
deriving DecidableEq, Repr

/-- `type SortDir`. -/
inductive SortDir where
  | asc | desc
deriving DecidableEq, Repr

/-- `function compareIntent(a, b)`: positionwise comparison over the two
code lists up to the longer length, reading `-1` past a list's end. -/
def compareIntent : List Int → List Int → Int
  | [], [] => 0
  | x :: xs, y :: ys => if x ≠ y then x - y else compareIntent xs ys
  | x :: xs, [] => if x ≠ -1 then x + 1 else compareIntent xs []
  | [], y :: ys => if -1 ≠ y then -1 - y else compareIntent [] ys

/-- The local `compareNullableNumber`: `null` ties with `null` and sorts
below any present value; present values compare by difference. -/
def compareNullableNumber : Option Rat → Option Rat → Rat
  | none, none => 0
  | none, some _ => -1
  | some _, none => 1
  | some a, some b => a - b

/-- `function compareRows(a, b)` for a given sort key.
`localeCompare` is locale dependent, hence an abstract parameter. -/
def compareRows (localeCmp : String → String → Int) (key : SortKey)
    (a b : KeywordRow) : Rat :=
  match key with
  | .keyword => (localeCmp a.keyword b.keyword : Rat)
  | .intent => (compareIntent a.intentCodes b.intentCodes : Rat)
  | .volume => compareNullableNumber a.searchVolume b.searchVolume
  | .kd => compareNullableNumber a.kd b.kd
  | .cpc => compareNullableNumber a.cpc b.cpc
  | .competition => compareNullableNumber a.competition b.competition
  | .results => compareNullableNumber a.numberOfResults b.numberOfResults

/-- The comparator passed to `.sort` in the `sortedRows` computed, over
(row, original index) pairs: ties on `compareRows` fall back to the
original index (in both directions); otherwise the comparison is negated
for descending order. -/
def fullCmp (localeCmp : String → String → Int) (key : SortKey) (dir : SortDir)
    (a b : KeywordRow × Nat) : Rat :=
  if compareRows localeCmp key a.1 b.1 = 0 then (a.2 : Rat) - (b.2 : Rat)
  else match dir with
    | .asc => compareRows localeCmp key a.1 b.1
    | .desc => -(compareRows localeCmp key a.1 b.1)

/-- The `≤ 0` relation of the sort comparator, as a Boolean. -/
def rowLe (localeCmp : String → String → Int) (key : SortKey) (dir : SortDir)
    (a b : KeywordRow × Nat) : Bool :=
  decide (fullCmp localeCmp key dir a b ≤ 0)

/-- The `sortedRows` computed: pair each filtered row with its index,
sort by the comparator, strip the indices.  The index tiebreak makes the
comparator a strict total order, so `Array.prototype.sort`'s output is
the unique ordering sorted w.r.t. it, here produced by `mergeSort`. -/
def sortedRows (localeCmp : String → String → Int) (key : SortKey)
    (dir : SortDir) (rows : List KeywordRow) : List KeywordRow :=
  (((rows.enum.map (fun p => (p.2, p.1))).mergeSort
      (rowLe localeCmp key dir)).map (fun p => p.1))

/-- The numeric sort keys. -/
inductive NumKey where
  | volume | kd | cpc | competition | results
deriving DecidableEq, Repr

/-- Embedding of a numeric sort key into `SortKey`. -/
def NumKey.toSortKey : NumKey → SortKey
  | .volume => .volume
  | .kd => .kd
  | .cpc => .cpc
  | .competition => .competition
  | .results => .results

/-- The nullable numeric field a numeric sort key compares. -/
def NumKey.field : NumKey → KeywordRow → Option Rat
  | .volume => KeywordRow.searchVolume
  | .kd => KeywordRow.kd
  | .cpc => KeywordRow.cpc
  | .competition => KeywordRow.competition
  | .results => KeywordRow.numberOfResults

/-! ## Helper lemmas -/

/-- Membership form of `availableHeadersOf`'s `contains` test. -/
theorem contains_availableHeadersOf (headers : List String) (h : String) :
    (availableHeadersOf headers).contains h =
      (EXPECTED_HEADERS.contains h && headers.contains h) := by
  by_cases h1 : h ∈ EXPECTED_HEADERS <;> by_cases h2 : h ∈ headers <;>
    simp [availableHeadersOf, List.contains, h1, h2]

/-! ## Claims -/

/-- C8: an input whose lines are all blank (including the empty string)
parses successfully into an empty table with the full recognized-column
catalog marked present, without requiring a "Keyword" header. -/
theorem C8_blank_input_empty_table (text : String)
    (h : linesOf text = []) :
    parseSemrushText text = .ok ⟨[], EXPECTED_HEADERS⟩ := by
  simp only [parseSemrushText, h]

/-- Witness for C8 at an input of blank lines (space, tab, CRLF). -/
theorem C8_blank_input_empty_table_witness :
    parseSemrushText " \n\t\r\n" = .ok ⟨[], EXPECTED_HEADERS⟩ :=
  C8_blank_input_empty_table " \n\t\r\n" (by decide)

/-- C3: when at least one non-blank line exists and the first one (the
header), split on `;` with cells trimmed, contains no cell equal to
"Keyword", parsing fails with the missing-required-column error,
regardless of the other columns. -/
theorem C3_missing_keyword_column (text : String) (headerLine : List Char)
    (rest : List (List Char))
    (hlines : linesOf text = headerLine :: rest)
    (hno : "Keyword" ∉ headersOf headerLine) :
    parseSemrushText text = .error .missingRequiredColumn := by
  simp only [parseSemrushText, hlines]
  rw [contains_availableHeadersOf]
  simp [hno]

/-- Witness for C3: a header carrying several recognized columns but not
"Keyword". -/
theorem C3_missing_keyword_column_witness :
    parseSemrushText "CPC;Search Volume;Intent\nfoo;1;2" =
      .error .missingRequiredColumn :=
  C3_missing_keyword_column "CPC;Search Volume;Intent\nfoo;1;2"
    "CPC;Search Volume;Intent".data ["foo;1;2".data] (by decide) (by decide)

/-- C10: the numeric field decoder strips every comma from the trimmed
cell (not only thousands groupings) and parses a leading numeric prefix,
ignoring trailing characters: "1,2" decodes to 12 (in both float and
integer mode) and "12abc" decodes to 12, while "abc", with no numeric
prefix, fails with the invalid-value error. -/
theorem C10_number_decoder_prefix_and_commas :
    parseNumber "1,2" "CPC" 2 false = .ok 12
  ∧ parseNumber "12abc" "CPC" 2 false = .ok 12
  ∧ parseNumber "1,2" "Search Volume" 2 true = .ok 12
  ∧ parseNumber "abc" "CPC" 2 false = .error (.invalidValue "CPC" 2 "abc") :=
  ⟨by decide, by decide, by decide, by decide⟩

/-- C6: a failed load leaves the whole session state unchanged apart from
the recorded error message — in particular the previous table and
presence set stay installed; a successful load replaces the table and
presence set wholesale and resets the load-scoped query state. -/
theorem C6_failed_load_preserves_table (st : SessionState) (name text : String) :
    (∀ e, parseSemrushText text = .error e →
      onFileChange st name text = { st with parseErrorMsg := some e })
  ∧ (∀ pr, parseSemrushText text = .ok pr →
      onFileChange st name text =
        { rows := pr.rows, availableHeaders := pr.availableHeaders,
          selectedIds := [], selectedSerpFeatures := [], keywordInput := "",
          debouncedKeyword := "", loadedFileName := name,
          parseErrorMsg := none }) := by
  constructor
  · intro e he
    simp [onFileChange, he]
  · intro pr hpr
    simp [onFileChange, hpr]

/-- A concrete pre-load session state used by witnesses. -/
def demoState : SessionState :=
  { rows := [{ id := 1, keyword := "kw", searchVolume := some 5, cpc := none,
               competition := none, numberOfResults := none, trends := [],
               relatedRelevance := none, serpFeatures := [1], intentCodes := [0],
               kd := none }],
    availableHeaders := ["Keyword", "Search Volume"],
    selectedIds := [1], selectedSerpFeatures := [1], keywordInput := "a",
    debouncedKeyword := "a", loadedFileName := "old.csv", parseErrorMsg := none }

/-- Witness for C6: a load failing on a missing "Keyword" column keeps
`demoState`'s table; a successful one-header load replaces it. -/
theorem C6_failed_load_preserves_table_witness :
    onFileChange demoState "new.csv" "CPC\n1" =
      { demoState with parseErrorMsg := some .missingRequiredColumn }
  ∧ onFileChange demoState "new.csv" "Keyword" =
      { rows := [], availableHeaders := ["Keyword"], selectedIds := [],
        selectedSerpFeatures := [], keywordInput := "", debouncedKeyword := "",
        loadedFileName := "new.csv", parseErrorMsg := none } :=
  ⟨(C6_failed_load_preserves_table demoState "new.csv" "CPC\n1").1
      .missingRequiredColumn (by decide),
   (C6_failed_load_preserves_table demoState "new.csv" "Keyword").2
      ⟨[], ["Keyword"]⟩ (by decide)⟩

/-- C5: with an empty text filter and the selection filter off, the tag
filter keeps exactly the rows whose SERP-feature list contains every
active tag (superset / AND semantics); with no active tags it keeps all
rows. -/
theorem C5_tag_filter_superset (rows : List KeywordRow) (sel : List Nat)
    (feats : List Int) :
    filteredRows rows "" false sel feats
      = rows.filter (fun r => feats.all (fun f => r.serpFeatures.contains f))
  ∧ filteredRows rows "" false sel [] = rows := by
  have hq : jsToLower (jsTrim "") = "" := by decide
  constructor
  · cases feats with
    | nil => simp [filteredRows, matchesRow, hq]
    | cons a as =>
      simp only [filteredRows, hq]
      refine List.filter_congr ?_
      intro r _
      simp [matchesRow]
  · simp [filteredRows, matchesRow, hq]

/-- A row with SERP features `[1]`, used by witnesses. -/
def rowFeat1 : KeywordRow :=
  { id := 1, keyword := "a", searchVolume := none, cpc := none,
    competition := none, numberOfResults := none, trends := [],
    relatedRelevance := none, serpFeatures := [1], intentCodes := [], kd := none }

/-- A row with SERP features `[1, 2]`, used by witnesses. -/
def rowFeat12 : KeywordRow :=
  { id := 2, keyword := "b", searchVolume := none, cpc := none,
    competition := none, numberOfResults := none, trends := [],
    relatedRelevance := none, serpFeatures := [1, 2], intentCodes := [], kd := none }

/-- Witness for C5 with two active tags: the row matching only one of
them is excluded (AND, not OR), while the superset row is kept. -/
theorem C5_tag_filter_superset_witness :
    filteredRows [rowFeat1, rowFeat12] "" false [] [1, 2]
      = [rowFeat1, rowFeat12].filter
          (fun r => [(1 : Int), 2].all (fun f => r.serpFeatures.contains f))
  ∧ filteredRows [rowFeat1, rowFeat12] "" false [] [] = [rowFeat1, rowFeat12] :=
  C5_tag_filter_superset [rowFeat1, rowFeat12] [] [1, 2]

/-- C7: a recognized column whose mapped position lies past the end of
the split line reads as `undefined` — exactly the value an absent column
yields — and the downstream decoders turn that absent cell into "no
value" for optional numeric fields and the empty sequence for list
fields, never into an error. -/
theorem C7_short_line_reads_absent (headers : List String) (line lbl : String)
    (h : String) (i ln : Nat) (b : Bool)
    (hidx : headerIdx headers h = some i)
    (hlen : (jsSplit line ';').length ≤ i) :
    readCell headers (jsSplit line ';') h = none
  ∧ parseNumberOrNull none lbl ln b = .ok none
  ∧ parseIntList "" lbl ln = .ok []
  ∧ parseTrendsCell none ln = .ok [] := by
  refine ⟨?_, rfl, ?_, rfl⟩
  · simp only [readCell, hidx]
    exact List.get?_eq_none.mpr hlen
  · have he : jsTrim "" = "" := by decide
    simp [parseIntList, he]

/-- Witness for C7: a two-column header over a one-cell line. -/
theorem C7_short_line_reads_absent_witness :
    readCell ["Keyword", "CPC"] (jsSplit "kw" ';') "CPC" = none
  ∧ parseNumberOrNull none "CPC" 2 false = .ok none
  ∧ parseIntList "" "Intent" 2 = .ok []
  ∧ parseTrendsCell none 2 = .ok [] :=
  C7_short_line_reads_absent ["Keyword", "CPC"] "kw" "CPC" "CPC" 1 2 false
    (by decide) (by decide)

/-- C1 counterexample: the input `"Keyword\n;"` has the non-blank data
line `";"`, yet parses successfully into a row whose keyword text is
empty — the decoder performs no non-emptiness validation on the keyword
cell. -/
theorem C1_counterexample :
    parseSemrushText "Keyword\n;" =
      .ok ⟨[{ id := 1, keyword := "", searchVolume := none, cpc := none,
              competition := none, numberOfResults := none, trends := [],
              relatedRelevance := none, serpFeatures := [], intentCodes := [],
              kd := none }], ["Keyword"]⟩
  ∧ jsTrim ";" ≠ "" := by
  exact ⟨by decide, by decide⟩

/-- C1 (amended): for every data line that decodes successfully, the
row's keyword text is the trimmed content of the Keyword cell (the empty
string when that cell is absent or past the line's end); it is not
validated non-empty and may be empty even for a non-blank line. -/
theorem C1_keyword_is_trimmed_cell (headers : List String) (line : String)
    (ri : Nat) (row : KeywordRow)
    (h : decodeRow headers line ri = .ok row) :
    row.keyword = jsTrim ((readCell headers (jsSplit line ';') "Keyword").getD "") := by
  simp only [decodeRow] at h
  repeat' split at h
  all_goals try exact (Except.noConfusion h)
  injection h with h
  subst h
  rfl

/-- The row decoded from the counterexample line `";"` under a
keyword-only header. -/
def emptyKeywordRow : KeywordRow :=
  { id := 1, keyword := "", searchVolume := none, cpc := none,
    competition := none, numberOfResults := none, trends := [],
    relatedRelevance := none, serpFeatures := [], intentCodes := [], kd := none }

/-- Witness for the amended C1 at the counterexample input. -/
theorem C1_keyword_is_trimmed_cell_witness :
    emptyKeywordRow.keyword =
      jsTrim ((readCell ["Keyword"] (jsSplit ";" ';') "Keyword").getD "") :=
  C1_keyword_is_trimmed_cell ["Keyword"] ";" 0 emptyKeywordRow (by decide)

/-- All row fields other than Trends decode without error on this split
line (the "other fields are valid" hypothesis of C2). -/
def restFieldsOk (headers cols : List String) (ln : Nat) : Prop :=
  (parseNumberOrNull (readCell headers cols "Search Volume") "Search Volume" ln true).isOk
  ∧ (parseNumberOrNull (readCell headers cols "CPC") "CPC" ln false).isOk
  ∧ (parseNumberOrNull (readCell headers cols "Competition") "Competition" ln false).isOk
  ∧ (parseNumberOrNull (readCell headers cols "Number of Results") "Number of Results" ln true).isOk
  ∧ (parseNumberOrNull (readCell headers cols "Related Relevance") "Related Relevance" ln false).isOk
  ∧ (parseIntList ((readCell headers cols "Keywords SERP Features").getD "")
      "Keywords SERP Features" ln).isOk
  ∧ (parseIntList ((readCell headers cols "Intent").getD "") "Intent" ln).isOk
  ∧ (parseNumberOrNull (readCell headers cols "Keyword Difficulty Index")
      "Keyword Difficulty Index" ln true).isOk

/-- An `Except` value with `isOk` holds some `ok` payload. -/
theorem exists_ok_of_isOk {α : Type} {e : Except ParseErr α}
    (h : e.isOk = true) : ∃ a, e = .ok a := by
  cases e with
  | ok a => exact ⟨a, rfl⟩
  | error e => simp [Except.isOk, Except.toBool] at h

/-- C2: when the Trends cell is present and parses to the value list
`ts`, a non-empty `ts` of length other than 12 fails the row with the
trends-length error at that line's number; when `ts` has length exactly
12 any successful decode carries `ts` clamped to `[0, 1]` entrywise, and
if all the other fields decode the row does decode, with those clamped
trends.  The length is checked on the parsed values, before clamping. -/
theorem C2_trends_length_check (headers : List String) (line traw : String)
    (ri : Nat) (ts : List Rat)
    (hcell : readCell headers (jsSplit line ';') "Trends" = some traw)
    (hparse : parseFloatList traw "Trends" (ri + 2) = .ok ts) :
    (ts ≠ [] → ts.length ≠ 12 →
      decodeRow headers line ri = .error (.trendsLengthMismatch (ri + 2)))
  ∧ (∀ row, decodeRow headers line ri = .ok row → row.trends = ts.map clamp01)
  ∧ (ts.length = 12 → restFieldsOk headers (jsSplit line ';') (ri + 2) →
      ∃ row, decodeRow headers line ri = .ok row ∧ row.trends = ts.map clamp01) := by
  have htr : parseTrendsCell (readCell headers (jsSplit line ';') "Trends") (ri + 2)
      = .ok ts := by
    rw [hcell]
    exact hparse
  refine ⟨?_, ?_, ?_⟩
  · intro hne h12
    simp only [decodeRow, htr]
    rw [if_pos ⟨fun h0 => hne (List.length_eq_zero.mp h0), h12⟩]
  · intro row hrow
    simp only [decodeRow, htr] at hrow
    by_cases hc : ts.length ≠ 0 ∧ ts.length ≠ 12
    · rw [if_pos hc] at hrow
      exact (Except.noConfusion hrow)
    · rw [if_neg hc] at hrow
      repeat' split at hrow
      all_goals try exact (Except.noConfusion hrow)
      injection hrow with hrow
      subst hrow
      rfl
  · intro h12 hok
    obtain ⟨h1, h2, h3, h4, h5, h6, h7, h8⟩ := hok
    obtain ⟨sv, hsv⟩ := exists_ok_of_isOk h1
    obtain ⟨cp, hcp⟩ := exists_ok_of_isOk h2
    obtain ⟨co, hco⟩ := exists_ok_of_isOk h3
    obtain ⟨nr, hnr⟩ := exists_ok_of_isOk h4
    obtain ⟨rr, hrr⟩ := exists_ok_of_isOk h5
    obtain ⟨sf, hsf⟩ := exists_ok_of_isOk h6
    obtain ⟨ic, hic⟩ := exists_ok_of_isOk h7
    obtain ⟨kd, hkd⟩ := exists_ok_of_isOk h8
    simp only [decodeRow, htr]
    rw [if_neg (by simp [h12])]
    simp only [hsv, hcp, hco, hnr, hrr, hsf, hic, hkd]
    exact ⟨_, rfl, rfl⟩

/-- Witness for C2: a Keyword+Trends table whose Trends cell has exactly
12 values, one of them (`1.5`) outside `[0, 1]` and so clamped. -/
theorem C2_trends_length_check_witness :
    ((["0.1", "0.2", "0.3", "0.4", "0.5", "0.6", "0.7", "0.8", "0.9", "1.5",
        "0.2", "0.3"].map (fun s => (jsParseFloat s).getD 0) ≠ []) →
      (["0.1", "0.2", "0.3", "0.4", "0.5", "0.6", "0.7", "0.8", "0.9", "1.5",
        "0.2", "0.3"].map (fun s => (jsParseFloat s).getD 0)).length ≠ 12 →
      decodeRow ["Keyword", "Trends"]
        "kw;0.1,0.2,0.3,0.4,0.5,0.6,0.7,0.8,0.9,1.5,0.2,0.3" 0
        = .error (.trendsLengthMismatch 2))
  ∧ (∀ row, decodeRow ["Keyword", "Trends"]
        "kw;0.1,0.2,0.3,0.4,0.5,0.6,0.7,0.8,0.9,1.5,0.2,0.3" 0 = .ok row →
      row.trends = (["0.1", "0.2", "0.3", "0.4", "0.5", "0.6", "0.7", "0.8",
        "0.9", "1.5", "0.2", "0.3"].map (fun s => (jsParseFloat s).getD 0)).map clamp01)
  ∧ ((["0.1", "0.2", "0.3", "0.4", "0.5", "0.6", "0.7", "0.8", "0.9", "1.5",
        "0.2", "0.3"].map (fun s => (jsParseFloat s).getD 0)).length = 12 →
      restFieldsOk ["Keyword", "Trends"]
        (jsSplit "kw;0.1,0.2,0.3,0.4,0.5,0.6,0.7,0.8,0.9,1.5,0.2,0.3" ';') 2 →
      ∃ row, decodeRow ["Keyword", "Trends"]
          "kw;0.1,0.2,0.3,0.4,0.5,0.6,0.7,0.8,0.9,1.5,0.2,0.3" 0 = .ok row
        ∧ row.trends = (["0.1", "0.2", "0.3", "0.4", "0.5", "0.6", "0.7", "0.8",
            "0.9", "1.5", "0.2", "0.3"].map (fun s => (jsParseFloat s).getD 0)).map clamp01) :=
  C2_trends_length_check ["Keyword", "Trends"]
    "kw;0.1,0.2,0.3,0.4,0.5,0.6,0.7,0.8,0.9,1.5,0.2,0.3" "0.1,0.2,0.3,0.4,0.5,0.6,0.7,0.8,0.9,1.5,0.2,0.3"
    0 _ (by decide) (by decide)

/-- C9: in every successfully decoded row, the SERP-feature tag list and
the intent-code tag list are sorted ascending and are permutations
(duplicates preserved) of the integer lists parsed from their
comma-separated source cells. -/
theorem C9_tag_lists_sorted_permutation (headers : List String) (line : String)
    (ri : Nat) (row : KeywordRow)
    (h : decodeRow headers line ri = .ok row) :
    row.serpFeatures.Sorted (· ≤ ·)
  ∧ row.intentCodes.Sorted (· ≤ ·)
  ∧ (∀ l, parseIntList ((readCell headers (jsSplit line ';') "Keywords SERP Features").getD "")
        "Keywords SERP Features" (ri + 2) = .ok l → row.serpFeatures.Perm l)
  ∧ (∀ l, parseIntList ((readCell headers (jsSplit line ';') "Intent").getD "")
        "Intent" (ri + 2) = .ok l → row.intentCodes.Perm l) := by
  simp only [decodeRow] at h
  repeat' split at h
  all_goals try exact (Except.noConfusion h)
  injection h with h
  subst h
  rename_i sfx sfv hserp icx icv hintent kdx kdv hkd
  refine ⟨List.sorted_insertionSort _ _, List.sorted_insertionSort _ _, ?_, ?_⟩
  · intro l hl
    rw [hserp] at hl
    injection hl with hl
    subst hl
    exact List.perm_insertionSort _ _
  · intro l hl
    rw [hintent] at hl
    injection hl with hl
    subst hl
    exact List.perm_insertionSort _ _

/-- The row decoded from `"kw;7,0,7;2,1"` under a Keyword/SERP/Intent
header: both tag lists arrive unsorted (with a duplicate) and are stored
sorted. -/
def tagRow : KeywordRow :=
  { id := 1, keyword := "kw", searchVolume := none, cpc := none,
    competition := none, numberOfResults := none, trends := [],
    relatedRelevance := none, serpFeatures := [0, 7, 7], intentCodes := [1, 2],
    kd := none }

/-- Witness for C9 at a line with unsorted, duplicated tag cells. -/
theorem C9_tag_lists_sorted_permutation_witness :
    tagRow.serpFeatures.Sorted (· ≤ ·)
  ∧ tagRow.intentCodes.Sorted (· ≤ ·)
  ∧ (∀ l, parseIntList ((readCell ["Keyword", "Keywords SERP Features", "Intent"]
        (jsSplit "kw;7,0,7;2,1" ';') "Keywords SERP Features").getD "")
        "Keywords SERP Features" 2 = .ok l → tagRow.serpFeatures.Perm l)
  ∧ (∀ l, parseIntList ((readCell ["Keyword", "Keywords SERP Features", "Intent"]
        (jsSplit "kw;7,0,7;2,1" ';') "Intent").getD "") "Intent" 2 = .ok l →
      tagRow.intentCodes.Perm l) :=
  C9_tag_lists_sorted_permutation ["Keyword", "Keywords SERP Features", "Intent"]
    "kw;7,0,7;2,1" 0 tagRow (by decide)

/-- The strict "nullable-aware" value order the numeric comparators
induce: absent sorts strictly below every present value; present values
compare by `<`. -/
def optLt : Option Rat → Option Rat → Prop
  | none, none => False
  | none, some _ => True
  | some _, none => False
  | some x, some y => x < y

/-- `optLt` is transitive. -/
theorem optLt_trans {l m r : Option Rat} (h1 : optLt l m) (h2 : optLt m r) :
    optLt l r := by
  cases l <;> cases m <;> cases r <;> simp_all [optLt]
  linarith

/-- `optLt` is trichotomous. -/
theorem optLt_trichotomy (l r : Option Rat) : optLt l r ∨ l = r ∨ optLt r l := by
  cases l with
  | none => cases r <;> simp [optLt]
  | some x =>
    cases r with
    | none => simp [optLt]
    | some y => simpa [optLt] using lt_trichotomy x y

/-- `optLt` is irreflexive. -/
theorem optLt_irrefl (l : Option Rat) : ¬ optLt l l := by
  cases l <;> simp [optLt]

/-- On numeric sort keys, `compareRows` is the nullable comparison of the
key's field. -/
theorem compareRows_numKey (lc : String → String → Int) (k : NumKey)
    (a b : KeywordRow) :
    compareRows lc k.toSortKey a b
      = compareNullableNumber (k.field a) (k.field b) := by
  cases k <;> rfl

/-- Characterization of the ascending comparator on numeric keys: value
strictly below, or equal values with the original-index tiebreak. -/
theorem rowLe_asc_iff (lc : String → String → Int) (k : NumKey)
    (a b : KeywordRow × Nat) :
    rowLe lc k.toSortKey .asc a b = true ↔
      (optLt (k.field a.1) (k.field b.1)
        ∨ (k.field a.1 = k.field b.1 ∧ a.2 ≤ b.2)) := by
  unfold rowLe fullCmp
  rw [compareRows_numKey, decide_eq_true_iff]
  generalize (NumKey.field k) a.1 = l
  generalize (NumKey.field k) b.1 = r
  cases l with
  | none =>
    cases r with
    | none => simp [compareNullableNumber, optLt, sub_nonpos, Nat.cast_le]
    | some y => norm_num [compareNullableNumber, optLt]
  | some x =>
    cases r with
    | none =>
      norm_num [compareNullableNumber, optLt]
      intro h
      simp at h
    | some y =>
      by_cases hxy : x = y
      · subst hxy
        simp [compareNullableNumber, optLt, sub_nonpos, Nat.cast_le]
      · simp only [compareNullableNumber, optLt, Option.some.injEq, hxy,
          false_and, or_false, if_neg (sub_ne_zero.mpr hxy)]
        constructor
        · intro h
          exact lt_of_le_of_ne (sub_nonpos.mp h) hxy
        · intro h
          exact sub_nonpos.mpr h.le

/-- Characterization of the descending comparator on numeric keys: value
strictly above, or equal values with the (still ascending) original-index
tiebreak. -/
theorem rowLe_desc_iff (lc : String → String → Int) (k : NumKey)
    (a b : KeywordRow × Nat) :
    rowLe lc k.toSortKey .desc a b = true ↔
      (optLt (k.field b.1) (k.field a.1)
        ∨ (k.field a.1 = k.field b.1 ∧ a.2 ≤ b.2)) := by
  unfold rowLe fullCmp
  rw [compareRows_numKey, decide_eq_true_iff]
  generalize (NumKey.field k) a.1 = l
  generalize (NumKey.field k) b.1 = r
  cases l with
  | none =>
    cases r with
    | none => simp [compareNullableNumber, optLt, sub_nonpos, Nat.cast_le]
    | some y =>
      norm_num [compareNullableNumber, optLt]
      intro h
      simp at h
  | some x =>
    cases r with
    | none => norm_num [compareNullableNumber, optLt]
    | some y =>
      by_cases hxy : x = y
      · subst hxy
        simp [compareNullableNumber, optLt, sub_nonpos, Nat.cast_le]
      · simp only [compareNullableNumber, optLt, Option.some.injEq, hxy,
          false_and, or_false, if_neg (sub_ne_zero.mpr hxy)]
        constructor
        · intro h
          have h' : (0 : Rat) ≤ x - y := by linarith
          exact lt_of_le_of_ne (sub_nonneg.mp h') (Ne.symm hxy)
        · intro h
          have h' : (0 : Rat) ≤ x - y := sub_nonneg.mpr h.le
          linarith

/-- The comparator is transitive on numeric keys, in both directions. -/
theorem rowLe_trans (lc : String → String → Int) (k : NumKey) (dir : SortDir) :
    ∀ a b c, rowLe lc k.toSortKey dir a b → rowLe lc k.toSortKey dir b c →
      rowLe lc k.toSortKey dir a c := by
  intro a b c hab hbc
  cases dir with
  | asc =>
    rw [rowLe_asc_iff] at hab hbc ⊢
    rcases hab with h1 | ⟨e1, i1⟩ <;> rcases hbc with h2 | ⟨e2, i2⟩
    · exact Or.inl (optLt_trans h1 h2)
    · exact Or.inl (by rw [← e2]; exact h1)
    · exact Or.inl (by rw [e1]; exact h2)
    · exact Or.inr ⟨e1.trans e2, i1.trans i2⟩
  | desc =>
    rw [rowLe_desc_iff] at hab hbc ⊢
    rcases hab with h1 | ⟨e1, i1⟩ <;> rcases hbc with h2 | ⟨e2, i2⟩
    · exact Or.inl (optLt_trans h2 h1)
    · exact Or.inl (by rw [← e2]; exact h1)
    · exact Or.inl (by rw [e1]; exact h2)
    · exact Or.inr ⟨e1.trans e2, i1.trans i2⟩

/-- The comparator is total on numeric keys, in both directions. -/
theorem rowLe_total (lc : String → String → Int) (k : NumKey) (dir : SortDir) :
    ∀ a b, rowLe lc k.toSortKey dir a b || rowLe lc k.toSortKey dir b a := by
  intro a b
  rw [Bool.or_eq_true]
  cases dir with
  | asc =>
    rw [rowLe_asc_iff, rowLe_asc_iff]
    rcases optLt_trichotomy (k.field a.1) (k.field b.1) with h | h | h
    · exact Or.inl (Or.inl h)
    · rcases Nat.le_total a.2 b.2 with hi | hi
      · exact Or.inl (Or.inr ⟨h, hi⟩)
      · exact Or.inr (Or.inr ⟨h.symm, hi⟩)
    · exact Or.inr (Or.inl h)
  | desc =>
    rw [rowLe_desc_iff, rowLe_desc_iff]
    rcases optLt_trichotomy (k.field a.1) (k.field b.1) with h | h | h
    · exact Or.inr (Or.inl h)
    · rcases Nat.le_total a.2 b.2 with hi | hi
      · exact Or.inl (Or.inr ⟨h, hi⟩)
      · exact Or.inr (Or.inr ⟨h.symm, hi⟩)
    · exact Or.inl (Or.inl h)

/-- The (row, index) pairing `sortedRows` sorts over. -/
def taggedRows (rows : List KeywordRow) : List (KeywordRow × Nat) :=
  rows.enum.map (fun p => (p.2, p.1))

/-- The indices of `taggedRows` are `0, …, n-1` in order. -/
theorem taggedRows_map_idx (rows : List KeywordRow) :
    (taggedRows rows).map (fun a => a.2) = List.range rows.length := by
  unfold taggedRows
  rw [List.map_map]
  have : ((fun a => a.2) ∘ fun p : Nat × KeywordRow => (p.2, p.1))
      = Prod.fst (α := Nat) (β := KeywordRow) := rfl
  rw [this, List.enum_eq_enumFrom, List.enumFrom_map_fst, List.range_eq_range']

/-- Dropping the indices of `taggedRows` recovers the row list. -/
theorem taggedRows_map_row (rows : List KeywordRow) :
    (taggedRows rows).map (fun a => a.1) = rows := by
  unfold taggedRows
  rw [List.map_map]
  have : ((fun a : KeywordRow × Nat => a.1) ∘ fun p : Nat × KeywordRow => (p.2, p.1))
      = Prod.snd (α := Nat) (β := KeywordRow) := rfl
  rw [this, List.enum_eq_enumFrom, List.enumFrom_map_snd]

/-- The indices of `taggedRows` are strictly increasing. -/
theorem taggedRows_pairwise_idx (rows : List KeywordRow) :
    (taggedRows rows).Pairwise (fun a b => a.2 < b.2) := by
  have := List.pairwise_lt_range rows.length
  rw [← taggedRows_map_idx rows] at this
  exact List.pairwise_map.mp this

/-- Stability of `sortedRows` on numeric keys (both directions): the rows
whose sort value equals any fixed `v` appear in the output in exactly
their input order. -/
theorem sortedRows_filter_eq (lc : String → String → Int) (k : NumKey)
    (dir : SortDir) (rows : List KeywordRow) (v : Option Rat) :
    (sortedRows lc k.toSortKey dir rows).filter (fun r => decide (k.field r = v))
      = rows.filter (fun r => decide (k.field r = v)) := by
  have hperm := List.mergeSort_perm (taggedRows rows) (rowLe lc k.toSortKey dir)
  have hsorted := List.sorted_mergeSort
    (fun a b c => rowLe_trans lc k dir a b c) (rowLe_total lc k dir) (taggedRows rows)
  set le := rowLe lc k.toSortKey dir with hle
  set T := taggedRows rows with hT
  set p : KeywordRow × Nat → Bool := fun a => decide (k.field a.1 = v) with hp
  have hmem : ∀ a ∈ (T.mergeSort le).filter p, k.field a.1 = v := by
    intro a ha
    have h' := List.of_mem_filter ha
    rw [hp] at h'
    exact of_decide_eq_true h'
  have hPf : ((T.mergeSort le).filter p).Pairwise (fun a b => le a b = true) :=
    List.Pairwise.sublist (List.filter_sublist _) hsorted
  have hidxle : ((T.mergeSort le).filter p).Pairwise (fun a b => a.2 ≤ b.2) := by
    refine hPf.imp_of_mem ?_
    intro a b ha hb hab
    have ea := hmem a ha
    have eb := hmem b hb
    cases dir with
    | asc =>
      rcases (rowLe_asc_iff lc k a b).mp hab with h | ⟨_, h⟩
      · rw [ea, eb] at h
        exact absurd h (optLt_irrefl v)
      · exact h
    | desc =>
      rcases (rowLe_desc_iff lc k a b).mp hab with h | ⟨_, h⟩
      · rw [ea, eb] at h
        exact absurd h (optLt_irrefl v)
      · exact h
  have hndS : ((T.mergeSort le).map (fun a => a.2)).Nodup := by
    refine (hperm.map (fun a => a.2)).nodup_iff.mpr ?_
    rw [hT, taggedRows_map_idx]
    exact List.nodup_range _
  have hnd : (((T.mergeSort le).filter p).map (fun a => a.2)).Nodup :=
    hndS.sublist ((List.filter_sublist _).map _)
  have hidxne : ((T.mergeSort le).filter p).Pairwise (fun a b => a.2 ≠ b.2) :=
    List.pairwise_map.mp hnd
  have h1 : ((T.mergeSort le).filter p).Pairwise (fun a b => a.2 < b.2) :=
    (hidxle.and hidxne).imp (fun h => lt_of_le_of_ne h.1 h.2)
  have h2 : (T.filter p).Pairwise (fun a b => a.2 < b.2) := by
    refine List.Pairwise.sublist (List.filter_sublist _) ?_
    rw [hT]
    exact taggedRows_pairwise_idx rows
  haveI : IsAntisymm (KeywordRow × Nat) (fun a b => a.2 < b.2) :=
    ⟨fun a b h h' => absurd (h.trans h') (lt_irrefl _)⟩
  have heqp : (T.mergeSort le).filter p = T.filter p :=
    List.eq_of_perm_of_sorted (hperm.filter p) h1 h2
  have hM : rows.filter (fun r => decide (k.field r = v))
      = (T.filter p).map (fun a => a.1) := by
    conv_lhs => rw [← taggedRows_map_row rows]
    rw [List.filter_map, ← hT]
    rfl
  show ((T.mergeSort le).map (fun a => a.1)).filter (fun r => decide (k.field r = v))
      = rows.filter (fun r => decide (k.field r = v))
  rw [List.filter_map, hM]
  show ((T.mergeSort le).filter p).map (fun a => a.1) = (T.filter p).map (fun a => a.1)
  rw [heqp]

/-- Nullable-aware placement in ascending order: once a present value
appears, no absent value follows. -/
theorem sortedRows_nullable_asc (lc : String → String → Int) (k : NumKey)
    (rows : List KeywordRow) :
    (sortedRows lc k.toSortKey .asc rows).Pairwise
      (fun r s => k.field s = none → k.field r = none) := by
  have hsorted := List.sorted_mergeSort
    (fun a b c => rowLe_trans lc k .asc a b c) (rowLe_total lc k .asc) (taggedRows rows)
  refine List.Pairwise.map _ ?_ hsorted
  intro a b hab hb
  rcases (rowLe_asc_iff lc k a b).mp hab with h | ⟨e, _⟩
  · rw [hb] at h
    rcases hfa : k.field a.1 with _ | x
    · rfl
    · rw [hfa] at h
      simp [optLt] at h
  · rw [e, hb]

/-- Nullable-aware placement in descending order: once an absent value
appears, only absent values follow. -/
theorem sortedRows_nullable_desc (lc : String → String → Int) (k : NumKey)
    (rows : List KeywordRow) :
    (sortedRows lc k.toSortKey .desc rows).Pairwise
      (fun r s => k.field r = none → k.field s = none) := by
  have hsorted := List.sorted_mergeSort
    (fun a b c => rowLe_trans lc k .desc a b c) (rowLe_total lc k .desc) (taggedRows rows)
  refine List.Pairwise.map _ ?_ hsorted
  intro a b hab ha
  rcases (rowLe_desc_iff lc k a b).mp hab with h | ⟨e, _⟩
  · rw [ha] at h
    rcases hfb : k.field b.1 with _ | x
    · rfl
    · rw [hfb] at h
      simp [optLt] at h
  · rw [← e, ha]

/-- C4: for every table, every numeric sort key and either direction, the
query engine's sort is stable — the rows carrying any fixed sort value
`v` keep their pre-sort relative order, thanks to the original-index
tiebreak — and nullable-aware: ascending output never places an
absent-value row after a present-value row, and descending output never
places a present-value row after an absent-value one. -/
theorem C4_sort_stable_and_nullable_aware (lc : String → String → Int)
    (k : NumKey) (rows : List KeywordRow) (v : Option Rat) :
    ((sortedRows lc k.toSortKey .asc rows).filter (fun r => decide (k.field r = v))
      = rows.filter (fun r => decide (k.field r = v)))
  ∧ ((sortedRows lc k.toSortKey .desc rows).filter (fun r => decide (k.field r = v))
      = rows.filter (fun r => decide (k.field r = v)))
  ∧ (sortedRows lc k.toSortKey .asc rows).Pairwise
      (fun r s => k.field s = none → k.field r = none)
  ∧ (sortedRows lc k.toSortKey .desc rows).Pairwise
      (fun r s => k.field r = none → k.field s = none) :=
  ⟨sortedRows_filter_eq lc k .asc rows v,
   sortedRows_filter_eq lc k .desc rows v,
   sortedRows_nullable_asc lc k rows,
   sortedRows_nullable_desc lc k rows⟩

/-- A row with CPC 1, used by the C4 witness. -/
def rowCpc1 : KeywordRow :=
  { id := 1, keyword := "a", searchVolume := none, cpc := some 1,
    competition := none, numberOfResults := none, trends := [],
    relatedRelevance := none, serpFeatures := [], intentCodes := [], kd := none }

/-- A row without CPC, used by the C4 witness. -/
def rowCpcNone : KeywordRow :=
  { id := 2, keyword := "b", searchVolume := none, cpc := none,
    competition := none, numberOfResults := none, trends := [],
    relatedRelevance := none, serpFeatures := [], intentCodes := [], kd := none }

/-- A second row with CPC 1, used by the C4 witness. -/
def rowCpc1' : KeywordRow :=
  { id := 3, keyword := "c", searchVolume := none, cpc := some 1,
    competition := none, numberOfResults := none, trends := [],
    relatedRelevance := none, serpFeatures := [], intentCodes := [], kd := none }

/-- Witness for C4 on a three-row table sorted by CPC, with a tie on
CPC = 1 and one absent value. -/
theorem C4_sort_stable_and_nullable_aware_witness :
    ((sortedRows (fun _ _ => 0) NumKey.cpc.toSortKey .asc [rowCpc1, rowCpcNone, rowCpc1']).filter
        (fun r => decide (NumKey.cpc.field r = some 1))
      = [rowCpc1, rowCpcNone, rowCpc1'].filter (fun r => decide (NumKey.cpc.field r = some 1)))
  ∧ ((sortedRows (fun _ _ => 0) NumKey.cpc.toSortKey .desc [rowCpc1, rowCpcNone, rowCpc1']).filter
        (fun r => decide (NumKey.cpc.field r = some 1))
      = [rowCpc1, rowCpcNone, rowCpc1'].filter (fun r => decide (NumKey.cpc.field r = some 1)))
  ∧ (sortedRows (fun _ _ => 0) NumKey.cpc.toSortKey .asc [rowCpc1, rowCpcNone, rowCpc1']).Pairwise
      (fun r s => NumKey.cpc.field s = none → NumKey.cpc.field r = none)
  ∧ (sortedRows (fun _ _ => 0) NumKey.cpc.toSortKey .desc [rowCpc1, rowCpcNone, rowCpc1']).Pairwise
      (fun r s => NumKey.cpc.field r = none → NumKey.cpc.field s = none) :=
  C4_sort_stable_and_nullable_aware (fun _ _ => 0) NumKey.cpc
    [rowCpc1, rowCpcNone, rowCpc1'] (some 1)

end Semrush
